import Mathlib

/-!
Shallow embedding of src/Project_14.py, a PySpark script that prepares a
tabular dataset, fits five regression models, accumulates a summary table,
and scores one manually built record.

Modelling conventions:
* A Spark DataFrame is a list of (name, type) columns plus a list of rows;
  a row is a list of values in column order.
* Floating point numbers are idealized as rationals.
* Calls into the external library whose results the script merely consumes
  (skewness, approxQuantile, the fitted StringIndexer mapping, log, exp,
  string-to-float casts, and the stringified RMSE / R2 metric values) are
  oracle parameters collected in SparkEnv.  MinMaxScaler, VectorAssembler,
  select, withColumn, withColumnRenamed, union and where are modelled
  concretely, following their documented Spark semantics.
* Operations that raise exceptions in Spark or Python (missing columns,
  assembling non-numeric values, fitting a scaler on an empty frame,
  union over mismatched column counts) are modelled with Option; none
  stands for an aborted run.
-/

set_option linter.unusedVariables false

namespace Project14

/-- Spark SQL data types appearing in the script. -/
inductive DType where
  | IntegerType
  | LongType
  | FloatType
  | DoubleType
  | StringType
  | VectorUDT
  deriving DecidableEq, Repr

/-- Cell values: integers, (idealized) floating point numbers, strings,
ML vectors, and SQL null. -/
inductive Value where
  | vint : Int → Value
  | vreal : ℚ → Value
  | vstr : String → Value
  | vvec : List ℚ → Value
  | vnull : Value
  deriving DecidableEq, Repr

/-- A Spark DataFrame: named, typed columns and positional rows. -/
structure DataFrame where
  cols : List (String × DType)
  rows : List (List Value)
  deriving DecidableEq, Repr

/-- Index of the first column with the given name. -/
def colIdxAux (name : String) : List (String × DType) → Option Nat
  | [] => none
  | c :: cs => if c.1 = name then some 0 else (colIdxAux name cs).map (· + 1)

/-- First column entry with the given name. -/
def findCol (name : String) : List (String × DType) → Option (String × DType)
  | [] => none
  | c :: cs => if c.1 = name then some c else findCol name cs

def DataFrame.colNames (df : DataFrame) : List String :=
  df.cols.map Prod.fst

def DataFrame.colIdx (df : DataFrame) (name : String) : Option Nat :=
  colIdxAux name df.cols

/-- Declared type of a column, as read from df.schema[name] (none models the
KeyError Python raises when the field is absent). -/
def DataFrame.schemaType (df : DataFrame) (name : String) : Option DType :=
  (findCol name df.cols).map Prod.snd

/-- Value of the named column in a row of the frame (vnull if absent). -/
def DataFrame.lookup (df : DataFrame) (row : List Value) (name : String) : Value :=
  match df.colIdx name with
  | some i => row.getD i Value.vnull
  | none => Value.vnull

/-- Spark withColumnRenamed: renames matching columns, no-op when the name
is absent. -/
def DataFrame.withColumnRenamed (df : DataFrame) (existing renamed : String) : DataFrame :=
  ⟨df.cols.map (fun c => if c.1 = existing then (renamed, c.2) else c), df.rows⟩

/-- Spark withColumn: replaces the column of that name in place, or appends
a new column at the end.  The expression is evaluated per row. -/
def DataFrame.withColumn (df : DataFrame) (name : String) (t : DType)
    (f : List Value → Value) : DataFrame :=
  match df.colIdx name with
  | some i => ⟨df.cols.set i (name, t), df.rows.map (fun r => r.set i (f r))⟩
  | none => ⟨df.cols ++ [(name, t)], df.rows.map (fun r => r ++ [f r])⟩

/-- Effectful map over a list in the Option monad (first failure aborts). -/
def mapOpt {α β : Type} (f : α → Option β) : List α → Option (List β)
  | [] => some []
  | a :: as => do
    let b ← f a
    let bs ← mapOpt f as
    return b :: bs

/-- Spark select: projects the named columns, failing when one is missing. -/
def DataFrame.select (df : DataFrame) (names : List String) : Option DataFrame := do
  let idxs ← mapOpt df.colIdx names
  return ⟨idxs.map (fun i => df.cols.getD i ("", DType.StringType)),
          df.rows.map (fun r => idxs.map (fun i => r.getD i Value.vnull))⟩

/-- Spark where / filter on rows. -/
def DataFrame.filterRows (df : DataFrame) (p : List Value → Bool) : DataFrame :=
  ⟨df.cols, df.rows.filter p⟩

/-- Spark union: positional, requires equal column counts (otherwise Spark
raises an AnalysisException). -/
def df_union (a b : DataFrame) : Option DataFrame :=
  if a.cols.length = b.cols.length then some ⟨a.cols, a.rows ++ b.rows⟩ else none

/-- Oracles for the external library calls whose numeric results the script
only consumes: per-column skewness and approximate quantiles, the fitted
StringIndexer mapping, floating point log / exp, string-to-float casting,
and the stringified RMSE / R2 test metrics per algorithm name. -/
structure SparkEnv where
  skew : String → ℚ
  quantile : String → ℚ × ℚ
  indexer : String → String → ℚ
  log : ℚ → ℚ
  exp : ℚ → ℚ
  parseFloat : String → Option ℚ
  rmseStr : String → String
  r2Str : String → String

/-- Numeric reading of a cell (VectorAssembler and the outlier expressions
operate on numeric columns). -/
def toQ? : Value → Option ℚ
  | Value.vint i => some (i : ℚ)
  | Value.vreal q => some q
  | _ => none

/-- Vector reading of a cell. -/
def toVec? : Value → Option (List ℚ)
  | Value.vvec v => some v
  | _ => none

/-- Spark cast to FloatType: numerics survive, strings parse-or-null,
anything else nulls. -/
def castFloat (env : SparkEnv) : Value → Value
  | Value.vint i => Value.vreal (i : ℚ)
  | Value.vreal q => Value.vreal q
  | Value.vstr s =>
    match env.parseFloat s with
    | some q => Value.vreal q
    | none => Value.vnull
  | _ => Value.vnull

/-- Lines 66-70 of the source: rename the output column to label and cast it
to FloatType unless its declared type already is IntegerType.  The schema
access raises (none) when no label column exists after the rename. -/
def prep_label (env : SparkEnv) (df : DataFrame) (variavel_saida : String) :
    Option DataFrame := do
  let novo_df := df.withColumnRenamed variavel_saida "label"
  let labelType ← novo_df.schemaType "label"
  if labelType ≠ DType.IntegerType then
    return novo_df.withColumn "label" DType.FloatType
      (fun r => castFloat env (novo_df.lookup r "label"))
  else
    return novo_df

/-- Lines 77-94 of the source: split the input columns into numeric names and
the _num-suffixed names planned for categorical columns.  A missing column
raises a KeyError (none).  The loop's repeated df_indexed = novo_df
assignment has no net effect and is folded into the caller. -/
def partition_loop (novo_df : DataFrame) : List String → Option (List String × List String)
  | [] => some ([], [])
  | coluna :: rest => do
    let t ← novo_df.schemaType coluna
    let p ← partition_loop novo_df rest
    if t = DType.StringType then
      return (p.1, (coluna ++ "_num") :: p.2)
    else
      return (coluna :: p.1, p.2)

/-- StringIndexer fitted on a column and applied: appends the _num column
with the fitted mapping (an oracle).  Matches line 107 of the source. -/
def indexer_transform (env : SparkEnv) (df : DataFrame) (coluna : String) : DataFrame :=
  df.withColumn (coluna ++ "_num") DType.DoubleType (fun r =>
    match df.lookup r coluna with
    | Value.vstr s => Value.vreal (env.indexer coluna s)
    | _ => Value.vnull)

/-- Lines 101-110 of the source: walk the columns of novo_df and, for each
string column, fit and apply an indexer to novo_df itself (not to the
accumulator), so only the last indexed column survives.  StringIndexer
refuses an already-existing output column.  The accumulator starts out
unassigned (none models the NameError of reading it unassigned). -/
def index_loop (env : SparkEnv) (novo_df : DataFrame) :
    List (String × DType) → Option DataFrame → Option DataFrame
  | [], acc => acc
  | c :: rest, acc =>
    if c.2 = DType.StringType then
      if (c.1 ++ "_num") ∈ novo_df.colNames then none
      else index_loop env novo_df rest (some (indexer_transform env novo_df c.1))
    else index_loop env novo_df rest acc

/-- Clipping to the approximate 1st / 99th percentile bounds, as in the
when(...).when(...).otherwise(...) chains of lines 138 and 143. -/
def clipQ (p1 p99 x : ℚ) : ℚ :=
  if x < p1 then p1 else if x > p99 then p99 else x

/-- Lines 117-146 of the source: for every numeric column look up the
quantile bounds and the skewness and build the clipped log / exp transform,
binding it to the local variable indexed - which is never read, so each
iteration passes df_indexed through unchanged.  (The source mixes df[col]
and df_indexed[col] inside the when-chain; both resolve to the same column
values, and the binding is dead either way.) -/
def outlier_block (env : SparkEnv) (df : DataFrame) (df_indexed0 : DataFrame)
    (variaveis_numericas : List String) : DataFrame :=
  let d : String → ℚ × ℚ := fun col => env.quantile col
  variaveis_numericas.foldl
    (fun df_indexed col =>
      let skew := env.skew col
      let indexed :=
        if skew > 1 then
          df_indexed.withColumn col DType.DoubleType (fun r =>
            match toQ? (df_indexed.lookup r col) with
            | some x => Value.vreal (env.log (clipQ (d col).1 (d col).2 x + 1))
            | none => Value.vnull)
        else if skew < -1 then
          df_indexed.withColumn col DType.DoubleType (fun r =>
            match toQ? (df_indexed.lookup r col) with
            | some x => Value.vreal (env.exp (clipQ (d col).1 (d col).2 x))
            | none => Value.vnull)
        else df_indexed
      df_indexed)
    df_indexed0

/-- Contribution of one cell to an assembled vector: numerics contribute one
slot, vectors are flattened, anything else (strings, nulls) makes
VectorAssembler raise. -/
def assembleVal : Value → Option (List ℚ)
  | Value.vint i => some [(i : ℚ)]
  | Value.vreal q => some [q]
  | Value.vvec v => some v
  | _ => none

/-- One assembled row. -/
def assembleRow (df : DataFrame) (inputCols : List String) (r : List Value) :
    Option (List ℚ) :=
  (mapOpt (fun c => assembleVal (df.lookup r c)) inputCols).map List.flatten

/-- VectorAssembler.transform: appends the assembled vector column, failing
when the output column already exists, an input column is missing, or a
value cannot be assembled. -/
def vector_assembler_transform (df : DataFrame) (inputCols : List String)
    (outputCol : String) : Option DataFrame :=
  if outputCol ∈ df.colNames then none
  else if inputCols.all (fun c => df.colNames.contains c) then
    (mapOpt (fun r => (assembleRow df inputCols r).map (fun v => r ++ [Value.vvec v]))
        df.rows).map
      (fun rows' => ⟨df.cols ++ [(outputCol, DType.VectorUDT)], rows'⟩)
  else none

/-- The fitted MinMaxScaler state: per-dimension minima and maxima observed
on the fitted data. -/
structure ScalerModel where
  mins : List ℚ
  maxs : List ℚ
  deriving DecidableEq, Repr

/-- MinMaxScaler.fit: reads the vector column, requires a nonempty frame of
equally-sized vectors, and records per-dimension minima and maxima. -/
def minmax_fit (df : DataFrame) (inputCol : String) : Option ScalerModel := do
  let vecs ← mapOpt (fun r => toVec? (df.lookup r inputCol)) df.rows
  match vecs with
  | [] => none
  | v :: rest =>
    if rest.all (fun w => w.length = v.length) then
      some ⟨rest.foldl (List.zipWith min) v, rest.foldl (List.zipWith max) v⟩
    else none

/-- One rescaled slot, Spark semantics with the default range [0, 1]:
(x - Emin) / (Emax - Emin), and 0.5 when the observed range is degenerate. -/
def scaleEntry (mn mx x : ℚ) : ℚ :=
  if mx = mn then 1/2 else (x - mn) / (mx - mn)

/-- Pointwise rescaling of a vector. -/
def scaleVec : List ℚ → List ℚ → List ℚ → List ℚ
  | mn :: mns, mx :: mxs, x :: xs => scaleEntry mn mx x :: scaleVec mns mxs xs
  | _, _, _ => []

/-- MinMaxScalerModel.transform: appends the rescaled vector column, failing
on an existing output column or a dimension mismatch. -/
def minmax_transform (sm : ScalerModel) (df : DataFrame) (inputCol outputCol : String) :
    Option DataFrame :=
  if outputCol ∈ df.colNames then none
  else
    (mapOpt (fun r => do
        let v ← toVec? (df.lookup r inputCol)
        if v.length = sm.mins.length then
          some (r ++ [Value.vvec (scaleVec sm.mins sm.maxs v)])
        else none)
      df.rows).map
      (fun rows' => ⟨df.cols ++ [(outputCol, DType.VectorUDT)], rows'⟩)

/-- Lines 63-186 of the source, func_modulo_prep_dados.  The global
scalerModel becomes the second component of the result (some only when
padronizar_dados is true). -/
def func_modulo_prep_dados (env : SparkEnv) (df : DataFrame)
    (variaveis_entrada : List String) (variavel_saida : String)
    (tratar_outliers : Bool) (padronizar_dados : Bool) :
    Option (DataFrame × Option ScalerModel) := do
  let novo_df ← prep_label env df variavel_saida
  let nc ← partition_loop novo_df variaveis_entrada
  let variaveis_numericas := nc.1
  let variaveis_categoricas := nc.2
  let df_indexed ←
    if variaveis_categoricas.length ≠ 0 then index_loop env novo_df novo_df.cols none
    else some novo_df
  let df_indexed :=
    if tratar_outliers = true then outlier_block env df df_indexed variaveis_numericas
    else df_indexed
  let lista_atributos := variaveis_numericas ++ variaveis_categoricas
  let assembled ← vector_assembler_transform df_indexed lista_atributos "features"
  let dados_vetorizados ← assembled.select ["features", "label"]
  if padronizar_dados = true then
    let scalerModel ← minmax_fit dados_vetorizados "features"
    let dados_padronizados ← minmax_transform scalerModel dados_vetorizados "features" "scaledFeatures"
    let sel ← dados_padronizados.select ["label", "scaledFeatures"]
    let dados_finais := sel.withColumnRenamed "scaledFeatures" "features"
    return (dados_finais, some scalerModel)
  else
    return (dados_vetorizados, none)

/-- Modelled from the spec: "For skew > 1, output values equal
log(clip(x, p1, p99) + 1) for every row" - the value the specification says
a positively skewed column's cells become. -/
def claimedTransformPos (env : SparkEnv) (p1 p99 x : ℚ) : ℚ :=
  env.log (clipQ p1 p99 x + 1)

/-- Modelled from the spec: "For skew < -1, output values equal
exp(clip(x, p1, p99)) for every row". -/
def claimedTransformNeg (env : SparkEnv) (p1 p99 x : ℚ) : ℚ :=
  env.exp (clipQ p1 p99 x)

/-- Column.substr(0, 5) in Spark SQL returns the first five characters. -/
def substr05 : Value → Value
  | Value.vstr s => Value.vstr (s.take 5)
  | _ => Value.vnull

/-- Lines 307-317 / 441-459 of the source: the one-row summary frame built
by spark.createDataFrame(zip([tipo], [rmse], [r2]), schema = columns). -/
def createResultDF (tipo rmse_str r2_str : String) : DataFrame :=
  ⟨[("Regressor", DType.StringType), ("Resultado_RMSE", DType.StringType),
    ("Resultado_R2", DType.StringType)],
   [[Value.vstr tipo, Value.vstr rmse_str, Value.vstr r2_str]]⟩

/-- Lines 241-465 of the source, func_modulo_ml, restricted to the result
plumbing: the cross-validated fitting and metric evaluation are oracles
(env.rmseStr, env.r2Str keyed by the algorithm type name).  Note that the
LinearRegression branch (lines 320-321) writes the truncated metrics into
the new columns Result_RMSE and Result_R2, while the other branch
(lines 462-463) overwrites Resultado_RMSE and Resultado_R2 in place. -/
def func_modulo_ml (env : SparkEnv) (tipo_algo : String) : DataFrame :=
  if tipo_algo = "LinearRegression" then
    let resultado_teste_rmse := env.rmseStr tipo_algo
    let resultado_teste_r2 := env.r2Str tipo_algo
    let df_resultado := createResultDF tipo_algo resultado_teste_rmse resultado_teste_r2
    let df_resultado := df_resultado.withColumn "Result_RMSE" DType.StringType
      (fun r => substr05 (df_resultado.lookup r "Resultado_RMSE"))
    let df_resultado := df_resultado.withColumn "Result_R2" DType.StringType
      (fun r => substr05 (df_resultado.lookup r "Resultado_R2"))
    df_resultado
  else
    let rmse_str := env.rmseStr tipo_algo
    let r2_str := env.r2Str tipo_algo
    let df_resultado := createResultDF tipo_algo rmse_str r2_str
    let df_resultado := df_resultado.withColumn "Resultado_RMSE" DType.StringType
      (fun r => substr05 (df_resultado.lookup r "Resultado_RMSE"))
    let df_resultado := df_resultado.withColumn "Resultado_R2" DType.StringType
      (fun r => substr05 (df_resultado.lookup r "Resultado_R2"))
    df_resultado

/-- Line 475 of the source: the five regressor instances, by type name. -/
def regressores : List String :=
  ["LinearRegression", "DecisionTreeRegressor", "RandomForestRegressor",
   "GBTRegressor", "IsotonicRegression"]

/-- Lines 478-482 of the source: the summary table seeded with one
placeholder row of N/A values. -/
def df_resultados_seed : DataFrame :=
  ⟨[("Regressor", DType.StringType), ("Resultado_RMSE", DType.StringType),
    ("Resultado_R2", DType.StringType)],
   [[Value.vstr "N/A", Value.vstr "N/A", Value.vstr "N/A"]]⟩

/-- Lines 485-491 of the source: the training loop, accumulating each
per-algorithm result frame into the summary table by union. -/
def run_training (env : SparkEnv) : List String → DataFrame → Option DataFrame
  | [], acc => some acc
  | r :: rest, acc => do
    let resultado_modelo := func_modulo_ml env r
    let acc' ← df_union acc resultado_modelo
    run_training env rest acc'

/-- Lines 485-494 of the source: run the loop over the five regressors and
keep the rows whose Regressor is not N/A. -/
def df_resultados_treinamento (env : SparkEnv) : Option DataFrame :=
  (run_training env regressores df_resultados_seed).map
    (fun d => d.filterRows (fun r =>
      if d.lookup r "Regressor" = Value.vstr "N/A" then false else true))

/-- Modelled from the spec: the first eight dataset column names
(dados.columns[0:8] at lines 515-516).  The CSV itself is not under src/;
the spec's end-to-end scenario and the attribute list at line 525 give the
names. -/
def column_names : List String :=
  ["cement", "slag", "flyash", "water", "superplasticizer",
   "coarseaggregate", "fineaggregate", "age"]

/-- Line 525 of the source: the attribute list for scoring. -/
def lista_atributos_scoring : List String :=
  ["cement", "slag", "flyash", "water", "superplasticizer",
   "coarseaggregate", "fineaggregate", "age"]

/-- Lines 512-519 of the source: the manually built record
(540, 0.0, 0.0, 162, 2.5, 1040, 676, 28) bound to the first eight dataset
columns; Python ints infer LongType and floats DoubleType. -/
def novos_dados0 : DataFrame :=
  ⟨column_names.zip
     [DType.LongType, DType.DoubleType, DType.DoubleType, DType.LongType,
      DType.DoubleType, DType.LongType, DType.LongType, DType.LongType],
   [[Value.vint 540, Value.vreal 0, Value.vreal 0, Value.vint 162,
     Value.vreal (5/2), Value.vint 1040, Value.vint 676, Value.vint 28]]⟩

/-- Line 522 of the source: novos_dados.withColumn("age", log("age") + 1) -
log of the age column, plus one (not log(age + 1), and with no clipping). -/
def novos_dados1 (env : SparkEnv) : DataFrame :=
  novos_dados0.withColumn "age" DType.DoubleType (fun r =>
    match toQ? (novos_dados0.lookup r "age") with
    | some q => Value.vreal (env.log q + 1)
    | none => Value.vnull)

/-- Lines 528-531 of the source: assemble the scoring record's features and
select the features column. -/
def novos_dados2 (env : SparkEnv) : Option DataFrame := do
  let a ← vector_assembler_transform (novos_dados1 env) lista_atributos_scoring "features"
  a.select ["features"]

/-- Lines 534-540 of the source: scale the scoring record with the fitted
scaler from training and rename the scaled column back to features. -/
def novos_dados_final (env : SparkEnv) (sm : ScalerModel) : Option DataFrame := do
  let nd ← novos_dados2 env
  let scaled ← minmax_transform sm nd "features" "scaledFeatures"
  let fin ← scaled.select ["scaledFeatures"]
  return fin.withColumnRenamed "scaledFeatures" "features"

/-- The values of one named column, row by row. -/
def columnValues (df : DataFrame) (col : String) : List Value :=
  df.rows.map (fun r => df.lookup r col)

/-- Whether a declared type is numeric. -/
def isNumericD : DType → Bool
  | DType.IntegerType => true
  | DType.LongType => true
  | DType.FloatType => true
  | DType.DoubleType => true
  | DType.StringType => false
  | DType.VectorUDT => false

/-- Concrete oracle assignment: skewness 2 everywhere (positive-skew branch),
quantile bounds (0, 4), a stand-in log that is constantly 1 and exp that is
constantly 7, and fixed metric strings. -/
def envB : SparkEnv :=
  { skew := fun _ => 2
    quantile := fun _ => (0, 4)
    indexer := fun _ _ => 0
    log := fun _ => 1
    exp := fun _ => 7
    parseFloat := fun _ => none
    rmseStr := fun _ => "2.3456789"
    r2Str := fun _ => "0.123456789" }

/-- Same oracles with skewness -2 everywhere (negative-skew branch). -/
def envC : SparkEnv :=
  { envB with skew := fun _ => -2 }

/-- Same oracles with skewness 0 everywhere (no-transform branch). -/
def envD : SparkEnv :=
  { envB with skew := fun _ => 0 }

/-- Oracles for the scoring comparison: age is positively skewed (2), log is
constantly 3, quantile bounds are wide. -/
def env4 : SparkEnv :=
  { skew := fun c => if c = "age" then 2 else 0
    quantile := fun _ => (0, 1000)
    indexer := fun _ _ => 0
    log := fun _ => 3
    exp := fun _ => 7
    parseFloat := fun _ => none
    rmseStr := fun _ => ""
    r2Str := fun _ => "" }

/-- One numeric input column x (value 5, above the upper clip bound 4) and a
numeric output column y. -/
def df1 : DataFrame :=
  ⟨[("x", DType.DoubleType), ("y", DType.DoubleType)],
   [[Value.vreal 5, Value.vreal 80]]⟩

/-- A frame whose declared output column y does not exist. -/
def df10 : DataFrame :=
  ⟨[("x", DType.DoubleType)], [[Value.vreal 1]]⟩

/-- A single string output column. -/
def df7 : DataFrame :=
  ⟨[("y", DType.StringType)], [[Value.vstr "80"]]⟩

/-- One-row training table with the eight concrete attribute columns and a
strength target; the row carries the same raw values as the scoring record,
in particular age 28. -/
def df_treino4 : DataFrame :=
  ⟨[("cement", DType.DoubleType), ("slag", DType.DoubleType), ("flyash", DType.DoubleType),
    ("water", DType.DoubleType), ("superplasticizer", DType.DoubleType),
    ("coarseaggregate", DType.DoubleType), ("fineaggregate", DType.DoubleType),
    ("age", DType.DoubleType), ("strength", DType.DoubleType)],
   [[Value.vreal 540, Value.vreal 0, Value.vreal 0, Value.vreal 162, Value.vreal (5/2),
     Value.vreal 1040, Value.vreal 676, Value.vreal 28, Value.vreal 80]]⟩

/-! Supporting lemmas. -/

/-- Each loop iteration of the outlier block returns its accumulator
unchanged: the transformed frame is bound to the dead local indexed, so the
whole block is the identity on the frame it receives. -/
theorem outlier_block_id (env : SparkEnv) (df dfi : DataFrame) (nums : List String) :
    outlier_block env df dfi nums = dfi := by
  induction nums generalizing dfi with
  | nil => rfl
  | cons c rest ih => exact ih dfi

/-! Claim theorems. -/

/-- C1.  The claim says that a numeric column with skewness above 1 reaches
the returned features as log(clip(x, p1, p99) + 1).  On the one-row frame
df1 (x = 5, bounds (0, 4), skewness oracle 2, log oracle constantly 1) the
returned feature vector still carries the raw 5: the transform prescribed by
the claim would have produced claimedTransformPos = log(clip(5,0,4)+1) = 1.
The code binds the transformed frame to the dead local indexed, so the
transform never reaches the output. -/
theorem claim_C1 :
    func_modulo_prep_dados envB df1 ["x"] "y" true false =
      some (⟨[("features", DType.VectorUDT), ("label", DType.FloatType)],
             [[Value.vvec [5], Value.vreal 80]]⟩, none) ∧
    envB.skew "x" > 1 ∧
    claimedTransformPos envB (envB.quantile "x").1 (envB.quantile "x").2 5 = 1 ∧
    (1 : ℚ) ≠ 5 := by
  refine ⟨by rfl, by norm_num [envB], by rfl, by norm_num⟩

/-- C2.  Same situation for negative skew: with the skewness oracle at -2
and the exp oracle constantly 7, the claim says the cell becomes
exp(clip(5,0,4)) = 7, but the returned feature vector still carries the raw
5 (the transformed frame is dead-stored). -/
theorem claim_C2 :
    func_modulo_prep_dados envC df1 ["x"] "y" true false =
      some (⟨[("features", DType.VectorUDT), ("label", DType.FloatType)],
             [[Value.vvec [5], Value.vreal 80]]⟩, none) ∧
    envC.skew "x" < -1 ∧
    claimedTransformNeg envC (envC.quantile "x").1 (envC.quantile "x").2 5 = 7 ∧
    (7 : ℚ) ≠ 5 := by
  refine ⟨by rfl, by norm_num [envC, envB], by rfl, by norm_num⟩

/-- C3.  For every input frame, column lists, oracle assignment and
padronizar_dados flag, running func_modulo_prep_dados with
tratar_outliers = true returns exactly the same result as with
tratar_outliers = false: the skew-based transforms are bound to the dead
local indexed, so the frame passed on to the vectorizer is the untreated
df_indexed either way. -/
theorem claim_C3 (env : SparkEnv) (df : DataFrame) (ins : List String)
    (out : String) (pad : Bool) :
    func_modulo_prep_dados env df ins out true pad =
      func_modulo_prep_dados env df ins out false pad := by
  simp only [func_modulo_prep_dados, outlier_block_id, if_true, Bool.false_eq_true, if_false]

/-- C9.  For a numeric column whose skewness lies strictly between -1 and 1,
the outlier-handling block leaves every value of that column unchanged (it
leaves the whole frame unchanged, so the features assembled afterwards see
the untouched values). -/
theorem claim_C9 (env : SparkEnv) (df dfi : DataFrame) (nums : List String)
    (col : String) (h1 : col ∈ nums) (h2 : -1 < env.skew col)
    (h3 : env.skew col < 1) :
    columnValues (outlier_block env df dfi nums) col = columnValues dfi col := by
  rw [outlier_block_id]

/-- C9 witness: the skew-0 oracle on the concrete frame df1. -/
theorem claim_C9_witness :
    columnValues (outlier_block envD df1 df1 ["x"]) "x" = columnValues df1 "x" :=
  claim_C9 envD df1 df1 ["x"] "x" (by decide) (by norm_num [envD, envB])
    (by norm_num [envD, envB])

/-- C5.  The selection loop never completes: the LinearRegression branch
returns a five-column frame (the truncated metrics land in the new columns
Result_RMSE and Result_R2), and its union with the three-column seeded
summary table fails with a column-count mismatch on the very first
iteration, so no five-row summary is ever produced. -/
theorem claim_C5 : df_resultados_treinamento envB = none := by rfl

/-- C6.  In the LinearRegression branch the truncated metrics are written to
the new columns Result_RMSE and Result_R2 instead of Resultado_RMSE and
Resultado_R2: the row returned for that branch keeps the full untruncated
metric strings in Resultado_RMSE and Resultado_R2 and carries two extra
columns. -/
theorem claim_C6 :
    func_modulo_ml envB "LinearRegression" =
      ⟨[("Regressor", DType.StringType), ("Resultado_RMSE", DType.StringType),
        ("Resultado_R2", DType.StringType), ("Result_RMSE", DType.StringType),
        ("Result_R2", DType.StringType)],
       [[Value.vstr "LinearRegression", Value.vstr "2.3456789",
         Value.vstr "0.123456789", Value.vstr "2.345", Value.vstr "0.123"]]⟩ := by
  rfl

/-- C10 counterexample: when the declared output column is absent (here y,
while the frame only has x), withColumnRenamed is a no-op and the schema
access for label raises, so no two-column table is returned at all. -/
theorem claim_C10_counterexample :
    func_modulo_prep_dados envB df10 ["x"] "y" true true = none := by rfl

/-- C4.  The training preparation and the scoring path do not apply the same
per-feature transforms.  On a training table whose row carries the same raw
values as the manually built record (age 28), with the age column positively
skewed (oracle skewness 2) and the log oracle constantly 3: the features
produced by func_modulo_prep_dados still hold the raw age 28 (the skew
transform is dead-stored), while the scoring path of lines 519-531 maps age
to log(28) + 1 = 4 before scaling - the two pipelines transform the same raw
age value to different features, and only afterwards is the shared fitted
scaler applied. -/
theorem claim_C4 :
    func_modulo_prep_dados env4 df_treino4 column_names "strength" true false =
      some (⟨[("features", DType.VectorUDT), ("label", DType.FloatType)],
             [[Value.vvec [540, 0, 0, 162, 5/2, 1040, 676, 28], Value.vreal 80]]⟩, none) ∧
    novos_dados2 env4 =
      some ⟨[("features", DType.VectorUDT)],
            [[Value.vvec [540, 0, 0, 162, 5/2, 1040, 676, env4.log 28 + 1]]]⟩ ∧
    env4.skew "age" > 1 ∧
    env4.log 28 + 1 = 4 ∧
    (4 : ℚ) ≠ 28 := by
  refine ⟨by rfl, by rfl, by norm_num [env4], by norm_num [env4], by norm_num⟩

theorem mapOpt_cons_eq_some {α β : Type} {f : α → Option β} {a : α} {as : List α}
    {ys : List β} (h : mapOpt f (a :: as) = some ys) :
    ∃ b bs, f a = some b ∧ mapOpt f as = some bs ∧ ys = b :: bs := by
  rw [mapOpt] at h
  cases hfa : f a with
  | none => rw [hfa] at h; simp at h
  | some b0 =>
    rw [hfa] at h
    cases hms : mapOpt f as with
    | none => rw [hms] at h; simp at h
    | some bs =>
      rw [hms] at h
      simp at h
      exact ⟨b0, bs, rfl, rfl, h.symm⟩

theorem mapOpt_nil_eq_some {α β : Type} {f : α → Option β} {ys : List β}
    (h : mapOpt f ([] : List α) = some ys) : ys = [] := by
  simp only [mapOpt, Option.some.injEq] at h
  exact h.symm

theorem mapOpt_eq_some_mem {α β : Type} {f : α → Option β} :
    ∀ {l : List α} {ys : List β}, mapOpt f l = some ys → ∀ {b : β}, b ∈ ys →
      ∃ a ∈ l, f a = some b := by
  intro l
  induction l with
  | nil =>
    intro ys h b hb
    cases mapOpt_nil_eq_some h
    simp at hb
  | cons a as ih =>
    intro ys h b hb
    obtain ⟨b0, bs, hb0, hbs, rfl⟩ := mapOpt_cons_eq_some h
    rcases List.mem_cons.mp hb with rfl | hmem
    · exact ⟨a, List.mem_cons_self a as, hb0⟩
    · obtain ⟨a1, ha1, hfa1⟩ := ih hbs hmem
      exact ⟨a1, List.mem_cons_of_mem a ha1, hfa1⟩

theorem mapOpt_mem_of_mem {α β : Type} {f : α → Option β} :
    ∀ {l : List α} {ys : List β}, mapOpt f l = some ys → ∀ {a : α}, a ∈ l →
      ∃ b ∈ ys, f a = some b := by
  intro l
  induction l with
  | nil =>
    intro ys h a ha
    simp at ha
  | cons a0 as ih =>
    intro ys h a ha
    obtain ⟨b0, bs, hb0, hbs, rfl⟩ := mapOpt_cons_eq_some h
    rcases List.mem_cons.mp ha with rfl | hmem
    · exact ⟨b0, List.mem_cons_self b0 bs, hb0⟩
    · obtain ⟨b1, hb1, hfb1⟩ := ih hbs hmem
      exact ⟨b1, List.mem_cons_of_mem b0 hb1, hfb1⟩

theorem mapOpt_length {α β : Type} {f : α → Option β} :
    ∀ {l : List α} {ys : List β}, mapOpt f l = some ys → ys.length = l.length := by
  intro l
  induction l with
  | nil =>
    intro ys h
    cases mapOpt_nil_eq_some h
    rfl
  | cons a as ih =>
    intro ys h
    obtain ⟨b0, bs, hb0, hbs, rfl⟩ := mapOpt_cons_eq_some h
    simp [ih hbs]

theorem mapOpt_map_eq {α β : Type} {f : α → Option β} {g : β → α} :
    ∀ {l : List α} {ys : List β}, mapOpt f l = some ys →
      (∀ a b, f a = some b → g b = a) → ys.map g = l := by
  intro l
  induction l with
  | nil =>
    intro ys h hg
    cases mapOpt_nil_eq_some h
    rfl
  | cons a as ih =>
    intro ys h hg
    obtain ⟨b0, bs, hb0, hbs, rfl⟩ := mapOpt_cons_eq_some h
    simp [hg a b0 hb0, ih hbs hg]

theorem colIdxAux_name {name : String} {d : String × DType} :
    ∀ {cols : List (String × DType)} {i : Nat}, colIdxAux name cols = some i →
      (cols.getD i d).1 = name := by
  intro cols
  induction cols with
  | nil => intro i h; simp [colIdxAux] at h
  | cons c cs ih =>
    intro i h
    rw [colIdxAux] at h
    by_cases hc : c.1 = name
    · rw [if_pos hc] at h
      cases h
      simpa using hc
    · rw [if_neg hc] at h
      cases hj : colIdxAux name cs with
      | none => rw [hj] at h; simp at h
      | some j =>
        rw [hj] at h
        simp at h
        cases h
        simpa [List.getD] using ih hj

theorem select_elim {df : DataFrame} {names : List String} {d : DataFrame}
    (h : df.select names = some d) :
    ∃ idxs, mapOpt df.colIdx names = some idxs ∧
      d.cols = idxs.map (fun i => df.cols.getD i ("", DType.StringType)) ∧
      d.rows = df.rows.map (fun r => idxs.map (fun i => r.getD i Value.vnull)) := by
  rw [DataFrame.select] at h
  cases hm : mapOpt df.colIdx names with
  | none => rw [hm] at h; simp at h
  | some idxs =>
    rw [hm] at h
    simp only [Option.pure_def, Option.bind_eq_bind, Option.some_bind, Option.some.injEq] at h
    exact ⟨idxs, rfl, by rw [← h], by rw [← h]⟩

theorem select_colNames {df : DataFrame} {names : List String} {d : DataFrame}
    (h : df.select names = some d) : d.colNames = names := by
  obtain ⟨idxs, hm, hcols, hrows⟩ := select_elim h
  rw [DataFrame.colNames, hcols, List.map_map]
  exact mapOpt_map_eq hm (fun a b hb => colIdxAux_name hb)

theorem rename_colNames (df : DataFrame) (a b : String) :
    (df.withColumnRenamed a b).colNames =
      df.colNames.map (fun n => if n = a then b else n) := by
  rw [DataFrame.withColumnRenamed, DataFrame.colNames, DataFrame.colNames]
  simp only [List.map_map]
  apply List.map_congr_left
  intro c hc
  by_cases hca : c.1 = a
  · simp [hca]
  · simp [hca]

theorem findCol_set {name : String} {t : DType} :
    ∀ {cols : List (String × DType)} {i : Nat}, colIdxAux name cols = some i →
      findCol name (cols.set i (name, t)) = some (name, t) := by
  intro cols
  induction cols with
  | nil => intro i h; simp [colIdxAux] at h
  | cons c cs ih =>
    intro i h
    rw [colIdxAux] at h
    by_cases hc : c.1 = name
    · rw [if_pos hc] at h
      cases h
      simp [findCol]
    · rw [if_neg hc] at h
      cases hj : colIdxAux name cs with
      | none => rw [hj] at h; simp at h
      | some j =>
        rw [hj] at h
        simp at h
        cases h
        simpa [List.set, findCol, hc] using ih hj

theorem colIdxAux_none_findCol {name : String} :
    ∀ {cols : List (String × DType)}, colIdxAux name cols = none →
      findCol name cols = none := by
  intro cols
  induction cols with
  | nil => intro h; rfl
  | cons c cs ih =>
    intro h
    rw [colIdxAux] at h
    by_cases hc : c.1 = name
    · rw [if_pos hc] at h; simp at h
    · rw [if_neg hc] at h
      rw [findCol, if_neg hc]
      cases hj : colIdxAux name cs with
      | none => exact ih hj
      | some j => rw [hj] at h; simp at h

theorem findCol_append_of_none {name : String} {cols cs : List (String × DType)}
    (h : findCol name cols = none) :
    findCol name (cols ++ cs) = findCol name cs := by
  induction cols with
  | nil => rfl
  | cons c cs0 ih =>
    rw [findCol] at h
    by_cases hc : c.1 = name
    · rw [if_pos hc] at h; simp at h
    · rw [if_neg hc] at h
      rw [List.cons_append, findCol, if_neg hc]
      exact ih h

theorem withColumn_schemaType (df : DataFrame) (name : String) (t : DType)
    (f : List Value → Value) :
    (df.withColumn name t f).schemaType name = some t := by
  rw [DataFrame.withColumn]
  cases hi : df.colIdx name with
  | some i =>
    rw [DataFrame.schemaType]
    simp only
    rw [findCol_set hi]
    rfl
  | none =>
    rw [DataFrame.schemaType]
    simp only
    rw [findCol_append_of_none (colIdxAux_none_findCol hi), findCol]
    simp

theorem findCol_rename {saida : String} :
    ∀ {cols : List (String × DType)},
      (∀ p ∈ cols, p.1 = "label" → saida = "label") →
      findCol "label" (cols.map (fun c => if c.1 = saida then ("label", c.2) else c)) =
        (findCol saida cols).map (fun c => ("label", c.2)) := by
  intro cols
  induction cols with
  | nil => intro hp; rfl
  | cons c cs ih =>
    intro hp
    by_cases hc : c.1 = saida
    · simp [findCol, hc]
    · have hcl : c.1 ≠ "label" := by
        intro hl
        exact hc (hl.trans (hp c (List.mem_cons_self c cs) hl).symm)
      simp only [List.map_cons, if_neg hc]
      rw [findCol, findCol]
      simp only [if_neg hcl, if_neg hc]
      exact ih (fun p hpmem => hp p (List.mem_cons_of_mem c hpmem))

/-- C7.  The output column is renamed to label; when its declared type is
not numeric the result's label column has FloatType, and when it is numeric
the result's label column keeps a numeric type (IntegerType stays put, the
other numeric types are re-cast to FloatType).  The hypotheses keep the
input honest: the frame must declare the output column, no other column may
already be called label (Spark would reject the resulting ambiguity), and a
vector-typed output is excluded (Spark cannot cast it to float). -/
theorem claim_C7 (env : SparkEnv) (df : DataFrame) (saida : String) (t0 : DType)
    (ndf : DataFrame)
    (hlab : "label" ∈ df.colNames → saida = "label")
    (ht : df.schemaType saida = some t0)
    (hv : t0 ≠ DType.VectorUDT)
    (h : prep_label env df saida = some ndf) :
    (isNumericD t0 = false → ndf.schemaType "label" = some DType.FloatType) ∧
    (isNumericD t0 = true → ∃ t, ndf.schemaType "label" = some t ∧ isNumericD t = true) := by
  have hp : ∀ p ∈ df.cols, p.1 = "label" → saida = "label" := by
    intro p hpmem hp1
    apply hlab
    rw [DataFrame.colNames]
    exact hp1 ▸ List.mem_map_of_mem Prod.fst hpmem
  have hren : (df.withColumnRenamed saida "label").schemaType "label" = some t0 := by
    rw [DataFrame.schemaType, DataFrame.withColumnRenamed]
    simp only
    rw [findCol_rename hp]
    rw [DataFrame.schemaType] at ht
    cases hfc : findCol saida df.cols with
    | none => rw [hfc] at ht; simp at ht
    | some p =>
      rw [hfc] at ht
      simp at ht
      simp [ht]
  simp only [prep_label, Option.bind_eq_bind] at h
  rw [hren] at h
  simp only [Option.some_bind] at h
  by_cases hti : t0 = DType.IntegerType
  · rw [if_neg (by simp [hti])] at h
    simp only [Option.pure_def, Option.some.injEq] at h
    constructor
    · intro hnum
      rw [hti] at hnum
      simp [isNumericD] at hnum
    · intro hnum
      refine ⟨t0, ?_, ?_⟩
      · rw [← h]; exact hren
      · exact hnum
  · rw [if_pos (by simpa using hti)] at h
    simp only [Option.pure_def, Option.some.injEq] at h
    have hfloat : ndf.schemaType "label" = some DType.FloatType := by
      rw [← h]
      exact withColumn_schemaType _ _ _ _
    constructor
    · intro hnum
      exact hfloat
    · intro hnum
      exact ⟨DType.FloatType, hfloat, rfl⟩


theorem opt_step {α β : Type} {x : Option α} {k : α → Option β} {r : β}
    (h : x >>= k = some r) : ∃ a, x = some a ∧ k a = some r := by
  cases hx : x with
  | none => rw [hx] at h; simp at h
  | some a =>
    rw [hx] at h
    simp only [Option.bind_eq_bind, Option.some_bind] at h
    exact ⟨a, rfl, h⟩

theorem func_prep_elim {env : SparkEnv} {df : DataFrame} {ins : List String}
    {out : String} {tro pad : Bool} {res : DataFrame} {s : Option ScalerModel}
    (h : func_modulo_prep_dados env df ins out tro pad = some (res, s)) :
    ∃ (assembled dv : DataFrame), assembled.select ["features", "label"] = some dv ∧
      ((pad = true ∧ ∃ (sm : ScalerModel) (dp sel : DataFrame),
          minmax_fit dv "features" = some sm ∧
          minmax_transform sm dv "features" "scaledFeatures" = some dp ∧
          dp.select ["label", "scaledFeatures"] = some sel ∧
          res = sel.withColumnRenamed "scaledFeatures" "features" ∧ s = some sm) ∨
       (pad = false ∧ res = dv ∧ s = none)) := by
  simp only [func_modulo_prep_dados, outlier_block_id, ite_self] at h
  obtain ⟨novo, h1, h⟩ := opt_step h
  obtain ⟨nc, h2, h⟩ := opt_step h
  split at h
  all_goals
    obtain ⟨y, h3, h⟩ := opt_step h
    obtain ⟨assembled, h4, h⟩ := opt_step h
    obtain ⟨dv, h5, h⟩ := opt_step h
    refine ⟨assembled, dv, h5, ?_⟩
    cases pad with
    | false =>
      simp only [Bool.false_eq_true, if_false, Option.pure_def, Option.some.injEq] at h
      exact Or.inr ⟨rfl, (congrArg Prod.fst h).symm, (congrArg Prod.snd h).symm⟩
    | true =>
      simp only [if_true] at h
      obtain ⟨sm, h6, h⟩ := opt_step h
      obtain ⟨dp, h7, h⟩ := opt_step h
      obtain ⟨sel, h8, h⟩ := opt_step h
      simp only [Option.pure_def, Option.some.injEq] at h
      exact Or.inl ⟨rfl, sm, dp, sel, h6, h7, h8,
        (congrArg Prod.fst h).symm, (congrArg Prod.snd h).symm⟩


/-- C10 (amended).  Whenever func_modulo_prep_dados returns a table at all,
that table has exactly two columns, named label and features, regardless of
the tratar_outliers and padronizar_dados flags. -/
theorem claim_C10 (env : SparkEnv) (df : DataFrame) (ins : List String)
    (out : String) (tro pad : Bool) (res : DataFrame) (s : Option ScalerModel)
    (h : func_modulo_prep_dados env df ins out tro pad = some (res, s)) :
    res.colNames.length = 2 ∧ "label" ∈ res.colNames ∧ "features" ∈ res.colNames := by
  obtain ⟨assembled, dv, hdv, hcase⟩ := func_prep_elim h
  rcases hcase with ⟨hpad, sm, dp, sel, hsm, hdp, hsel, hres, hs⟩ | ⟨hpad, hres, hs⟩
  · have hseln := select_colNames hsel
    rw [hres, rename_colNames, hseln]
    simp
  · have hdvn := select_colNames hdv
    rw [hres, hdvn]
    simp

/-- C10 witness: the concrete run of claim C1's frame, without scaling. -/
theorem claim_C10_witness :
    (DataFrame.colNames ⟨[("features", DType.VectorUDT), ("label", DType.FloatType)],
        [[Value.vvec [5], Value.vreal 80]]⟩).length = 2 ∧
      "label" ∈ DataFrame.colNames ⟨[("features", DType.VectorUDT), ("label", DType.FloatType)],
        [[Value.vvec [5], Value.vreal 80]]⟩ ∧
      "features" ∈ DataFrame.colNames ⟨[("features", DType.VectorUDT), ("label", DType.FloatType)],
        [[Value.vvec [5], Value.vreal 80]]⟩ :=
  claim_C10 envB df1 ["x"] "y" true false
    ⟨[("features", DType.VectorUDT), ("label", DType.FloatType)],
     [[Value.vvec [5], Value.vreal 80]]⟩ none (by rfl)

/-- C7 witness: a string-typed output column y is renamed to label and cast,
ending with FloatType. -/
theorem claim_C7_witness :
    (isNumericD DType.StringType = false →
      DataFrame.schemaType ⟨[("label", DType.FloatType)], [[Value.vnull]]⟩ "label" =
        some DType.FloatType) ∧
    (isNumericD DType.StringType = true →
      ∃ t, DataFrame.schemaType ⟨[("label", DType.FloatType)], [[Value.vnull]]⟩ "label" =
        some t ∧ isNumericD t = true) :=
  claim_C7 envB df7 "y" DType.StringType ⟨[("label", DType.FloatType)], [[Value.vnull]]⟩
    (by decide) (by rfl) (by decide) (by rfl)


theorem zipWith_get?_eq_some {f : ℚ → ℚ → ℚ} :
    ∀ (a b : List ℚ) (i : Nat) (z : ℚ),
      (List.zipWith f a b).get? i = some z ↔
        ∃ x y, a.get? i = some x ∧ b.get? i = some y ∧ z = f x y := by
  intro a
  induction a with
  | nil => intro b i z; simp
  | cons x0 xs ih =>
    intro b i z
    cases b with
    | nil => simp
    | cons y0 ys =>
      cases i with
      | zero =>
        simp only [List.zipWith_cons_cons, List.get?_cons_zero, Option.some.injEq]
        constructor
        · intro h; exact ⟨x0, y0, rfl, rfl, h.symm⟩
        · rintro ⟨x, y, hx, hy, rfl⟩
          cases hx; cases hy; rfl
      | succ j =>
        simp only [List.zipWith_cons_cons, List.get?_cons_succ]
        exact ih ys j z

theorem foldl_zipWith_length (f : ℚ → ℚ → ℚ) :
    ∀ (rest : List (List ℚ)) (acc : List ℚ),
      (∀ w ∈ rest, w.length = acc.length) →
      (rest.foldl (List.zipWith f) acc).length = acc.length := by
  intro rest
  induction rest with
  | nil => intro acc h; rfl
  | cons w rest ih =>
    intro acc h
    have hw : w.length = acc.length := h w (List.mem_cons_self w rest)
    have hz : (List.zipWith f acc w).length = acc.length := by
      rw [List.length_zipWith, hw, min_self]
    rw [List.foldl_cons]
    rw [ih (List.zipWith f acc w) (fun u hu => (h u (List.mem_cons_of_mem w hu)).trans hz.symm)]
    exact hz

theorem foldl_zipWith_min_le :
    ∀ (rest : List (List ℚ)) (acc v : List ℚ),
      (v = acc ∨ v ∈ rest) → (∀ w ∈ rest, w.length = acc.length) →
      ∀ i m x, (rest.foldl (List.zipWith min) acc).get? i = some m →
        v.get? i = some x → m ≤ x := by
  intro rest
  induction rest with
  | nil =>
    intro acc v hv hlen i m x hF hvx
    rcases hv with rfl | hv
    · rw [List.foldl_nil] at hF
      rw [hF] at hvx
      cases hvx
      exact le_refl m
    · simp at hv
  | cons w rest ih =>
    intro acc v hv hlen i m x hF hvx
    have hw : w.length = acc.length := hlen w (List.mem_cons_self w rest)
    have hzlen : (List.zipWith min acc w).length = acc.length := by
      rw [List.length_zipWith, hw, min_self]
    have hlen' : ∀ u ∈ rest, u.length = (List.zipWith min acc w).length :=
      fun u hu => (hlen u (List.mem_cons_of_mem w hu)).trans hzlen.symm
    rw [List.foldl_cons] at hF
    have hmid : ∀ j n z, (rest.foldl (List.zipWith min) (List.zipWith min acc w)).get? j = some n →
        (List.zipWith min acc w).get? j = some z → n ≤ z :=
      fun j n z h1 h2 => ih (List.zipWith min acc w) (List.zipWith min acc w) (Or.inl rfl) hlen' j n z h1 h2
    have hFlen : (rest.foldl (List.zipWith min) (List.zipWith min acc w)).length =
        (List.zipWith min acc w).length := foldl_zipWith_length min rest _ hlen'
    have hi : i < (List.zipWith min acc w).length := by
      rcases List.get?_eq_some.mp hF with ⟨hilt, _⟩
      rw [← hFlen]
      exact hilt
    obtain ⟨z, hz⟩ := Option.ne_none_iff_exists'.mp (by
      intro hnone
      rw [List.get?_eq_none] at hnone
      exact absurd hi (not_lt.mpr hnone))
    have hmz : m ≤ z := hmid i m z hF hz
    obtain ⟨xa, xw, hxa, hxw, hzval⟩ := (zipWith_get?_eq_some acc w i z).mp hz
    rcases hv with rfl | hv
    · rw [hxa] at hvx
      cases hvx
      calc m ≤ z := hmz
        _ = min x xw := hzval
        _ ≤ x := min_le_left x xw
    · rcases List.mem_cons.mp hv with rfl | hvrest
      · rw [hxw] at hvx
        cases hvx
        calc m ≤ z := hmz
          _ = min xa x := hzval
          _ ≤ x := min_le_right xa x
      · exact ih (List.zipWith min acc w) v (Or.inr hvrest) hlen' i m x hF hvx

theorem foldl_zipWith_max_ge :
    ∀ (rest : List (List ℚ)) (acc v : List ℚ),
      (v = acc ∨ v ∈ rest) → (∀ w ∈ rest, w.length = acc.length) →
      ∀ i m x, (rest.foldl (List.zipWith max) acc).get? i = some m →
        v.get? i = some x → x ≤ m := by
  intro rest
  induction rest with
  | nil =>
    intro acc v hv hlen i m x hF hvx
    rcases hv with rfl | hv
    · rw [List.foldl_nil] at hF
      rw [hF] at hvx
      cases hvx
      exact le_refl m
    · simp at hv
  | cons w rest ih =>
    intro acc v hv hlen i m x hF hvx
    have hw : w.length = acc.length := hlen w (List.mem_cons_self w rest)
    have hzlen : (List.zipWith max acc w).length = acc.length := by
      rw [List.length_zipWith, hw, min_self]
    have hlen' : ∀ u ∈ rest, u.length = (List.zipWith max acc w).length :=
      fun u hu => (hlen u (List.mem_cons_of_mem w hu)).trans hzlen.symm
    rw [List.foldl_cons] at hF
    have hmid : ∀ j n z, (rest.foldl (List.zipWith max) (List.zipWith max acc w)).get? j = some n →
        (List.zipWith max acc w).get? j = some z → z ≤ n :=
      fun j n z h1 h2 => ih (List.zipWith max acc w) (List.zipWith max acc w) (Or.inl rfl) hlen' j n z h1 h2
    have hFlen : (rest.foldl (List.zipWith max) (List.zipWith max acc w)).length =
        (List.zipWith max acc w).length := foldl_zipWith_length max rest _ hlen'
    have hi : i < (List.zipWith max acc w).length := by
      rcases List.get?_eq_some.mp hF with ⟨hilt, _⟩
      rw [← hFlen]
      exact hilt
    obtain ⟨z, hz⟩ := Option.ne_none_iff_exists'.mp (by
      intro hnone
      rw [List.get?_eq_none] at hnone
      exact absurd hi (not_lt.mpr hnone))
    have hmz : z ≤ m := hmid i m z hF hz
    obtain ⟨xa, xw, hxa, hxw, hzval⟩ := (zipWith_get?_eq_some acc w i z).mp hz
    rcases hv with rfl | hv
    · rw [hxa] at hvx
      cases hvx
      calc x ≤ max x xw := le_max_left x xw
        _ = z := hzval.symm
        _ ≤ m := hmz
    · rcases List.mem_cons.mp hv with rfl | hvrest
      · rw [hxw] at hvx
        cases hvx
        calc x ≤ max xa x := le_max_right xa x
          _ = z := hzval.symm
          _ ≤ m := hmz
      · exact ih (List.zipWith max acc w) v (Or.inr hvrest) hlen' i m x hF hvx

theorem scaleEntry_bounds {mn mx x : ℚ} (h1 : mn ≤ x) (h2 : x ≤ mx) :
    0 ≤ scaleEntry mn mx x ∧ scaleEntry mn mx x ≤ 1 := by
  rw [scaleEntry]
  by_cases he : mx = mn
  · rw [if_pos he]
    norm_num
  · rw [if_neg he]
    have hlt : mn < mx := lt_of_le_of_ne (h1.trans h2) (Ne.symm he)
    have hpos : (0 : ℚ) < mx - mn := sub_pos.mpr hlt
    constructor
    · exact div_nonneg (sub_nonneg.mpr h1) hpos.le
    · rw [div_le_one hpos]
      exact sub_le_sub_right h2 mn

theorem scaleVec_forall_bounds :
    ∀ (mins maxs v : List ℚ),
      (∀ i m x, mins.get? i = some m → v.get? i = some x → m ≤ x) →
      (∀ i m x, maxs.get? i = some m → v.get? i = some x → x ≤ m) →
      ∀ q ∈ scaleVec mins maxs v, 0 ≤ q ∧ q ≤ 1 := by
  intro mins
  induction mins with
  | nil => intro maxs v hmin hmax q hq; simp [scaleVec] at hq
  | cons mn mns ih =>
    intro maxs v hmin hmax q hq
    cases maxs with
    | nil => simp [scaleVec] at hq
    | cons mx mxs =>
      cases v with
      | nil => simp [scaleVec] at hq
      | cons x xs =>
        rw [scaleVec] at hq
        rcases List.mem_cons.mp hq with rfl | hqtail
        · exact scaleEntry_bounds (hmin 0 mn x rfl rfl) (hmax 0 mx x rfl rfl)
        · exact ih mxs xs
            (fun i m y hm hy => hmin (i + 1) m y (by simpa using hm) (by simpa using hy))
            (fun i m y hm hy => hmax (i + 1) m y (by simpa using hm) (by simpa using hy))
            q hqtail


theorem minmax_fit_elim {df : DataFrame} {inputCol : String} {sm : ScalerModel}
    (h : minmax_fit df inputCol = some sm) :
    ∃ (vecs : List (List ℚ)) (v0 : List ℚ) (rest : List (List ℚ)),
      mapOpt (fun r => toVec? (df.lookup r inputCol)) df.rows = some vecs ∧
      vecs = v0 :: rest ∧ (∀ w ∈ rest, w.length = v0.length) ∧
      sm.mins = rest.foldl (List.zipWith min) v0 ∧
      sm.maxs = rest.foldl (List.zipWith max) v0 := by
  rw [minmax_fit] at h
  obtain ⟨vecs, hvecs, h⟩ := opt_step h
  cases vecs with
  | nil => simp at h
  | cons v0 rest =>
    simp only at h
    split at h
    case isTrue hall =>
      simp only [Option.some.injEq] at h
      refine ⟨v0 :: rest, v0, rest, hvecs, rfl, ?_, ?_, ?_⟩
      · intro w hw
        simpa using List.all_eq_true.mp hall w hw
      · rw [← h]
      · rw [← h]
    case isFalse hall => simp at h

theorem minmax_transform_elim {sm : ScalerModel} {df : DataFrame}
    {inputCol outputCol : String} {dp : DataFrame}
    (h : minmax_transform sm df inputCol outputCol = some dp) :
    dp.cols = df.cols ++ [(outputCol, DType.VectorUDT)] ∧
    mapOpt (fun r => do
        let v ← toVec? (df.lookup r inputCol)
        if v.length = sm.mins.length then
          some (r ++ [Value.vvec (scaleVec sm.mins sm.maxs v)])
        else none) df.rows = some dp.rows := by
  rw [minmax_transform] at h
  split at h
  case isTrue => simp at h
  case isFalse hmem =>
    cases hm : mapOpt (fun r => do
        let v ← toVec? (df.lookup r inputCol)
        if v.length = sm.mins.length then
          some (r ++ [Value.vvec (scaleVec sm.mins sm.maxs v)])
        else none) df.rows with
    | none => rw [hm] at h; simp at h
    | some rows' =>
      rw [hm] at h
      simp only [Option.map_some', Option.some.injEq] at h
      rw [← h]
      exact ⟨rfl, rfl⟩


theorem rename_rows (df : DataFrame) (a b : String) :
    (df.withColumnRenamed a b).rows = df.rows := rfl

theorem getD_append_self : ∀ (l : List Value) (x d : Value),
    (l ++ [x]).getD l.length d = x := by
  intro l
  induction l with
  | nil => intro x d; rfl
  | cons a as ih =>
    intro x d
    simp [List.getD_cons_succ, ih x d]

theorem cols_of_colNames_pair {d : DataFrame} {a b : String}
    (h : d.colNames = [a, b]) : ∃ t1 t2, d.cols = [(a, t1), (b, t2)] := by
  rcases d with ⟨cols, rows⟩
  rw [DataFrame.colNames] at h
  cases cols with
  | nil => simp at h
  | cons c1 cs =>
    cases cs with
    | nil => simp at h
    | cons c2 cs2 =>
      cases cs2 with
      | nil =>
        simp only [List.map_cons, List.map_nil, List.cons.injEq, and_true] at h
        obtain ⟨h1, h2⟩ := h
        exact ⟨c1.2, c2.2, by simp [← h1, ← h2]⟩
      | cons c3 cs3 => simp at h

/-- C8.  Whenever func_modulo_prep_dados runs with padronizar_dados = true
and returns a table together with the fitted scaler, every entry of every
feature vector of that table lies in the closed interval [0, 1]: the
min-max scaler is applied to the very vectors it was fitted on. -/
theorem claim_C8 (env : SparkEnv) (df : DataFrame) (ins : List String)
    (out : String) (tro : Bool) (res : DataFrame) (sm : ScalerModel)
    (h : func_modulo_prep_dados env df ins out tro true = some (res, some sm)) :
    ∀ r ∈ res.rows, ∀ v, res.lookup r "features" = Value.vvec v →
      ∀ q ∈ v, 0 ≤ q ∧ q ≤ 1 := by
  obtain ⟨assembled, dv, hdv, hcase⟩ := func_prep_elim h
  rcases hcase with ⟨_, sm', dp, sel, hsm, hdp, hsel, hres, hs⟩ | ⟨hpad, _, _⟩
  swap
  · simp at hpad
  -- shape of the vectorized table dv
  have hdvn : dv.colNames = ["features", "label"] := select_colNames hdv
  obtain ⟨tF, tL, hdvcols⟩ := cols_of_colNames_pair hdvn
  obtain ⟨idxs0, hm0, hdvcols', hdvrows⟩ := select_elim hdv
  have hidxs0len : idxs0.length = 2 := by
    rw [mapOpt_length hm0]
    rfl
  -- shape of the scaled table dp
  obtain ⟨hdpcols, hdprows⟩ := minmax_transform_elim hdp
  rw [hdvcols] at hdpcols
  -- shape of the selected table sel
  obtain ⟨idxs, hm1, hselcols, hselrows⟩ := select_elim hsel
  obtain ⟨iL, idxs1, hiL, hm2, hidxs⟩ := mapOpt_cons_eq_some hm1
  obtain ⟨iS, idxs2, hiS, hm3, hidxs1⟩ := mapOpt_cons_eq_some hm2
  have hidxs2 : idxs2 = [] := mapOpt_nil_eq_some hm3
  subst hidxs2
  subst hidxs1
  subst hidxs
  have hiLval : iL = 1 := by
    have hcomp : dp.colIdx "label" = some 1 := by
      simp [DataFrame.colIdx, hdpcols, colIdxAux]
    rw [hiL] at hcomp
    exact (Option.some.injEq _ _).mp hcomp
  have hiSval : iS = 2 := by
    have hcomp : dp.colIdx "scaledFeatures" = some 2 := by
      simp [DataFrame.colIdx, hdpcols, colIdxAux]
    rw [hiS] at hcomp
    exact (Option.some.injEq _ _).mp hcomp
  subst hiLval
  subst hiSval
  have hselcolsval : sel.cols = [("label", tL), ("scaledFeatures", DType.VectorUDT)] := by
    rw [hselcols, hdpcols]
    rfl
  -- shape of the returned table res
  have hrescols : res.cols = [("label", tL), ("features", DType.VectorUDT)] := by
    rw [hres, DataFrame.withColumnRenamed, hselcolsval]
    simp
  have hresrows : res.rows = sel.rows := by
    rw [hres, rename_rows]
  have hreslook : res.colIdx "features" = some 1 := by
    simp [DataFrame.colIdx, hrescols, colIdxAux]
  -- fitted bounds
  obtain ⟨vecs, v0, rest, hvecsmap, hvecseq, hall, hmins, hmaxs⟩ := minmax_fit_elim hsm
  -- main argument
  intro r hr v hlook q hq
  rw [hresrows, hselrows] at hr
  obtain ⟨r0, hr0mem, hr0⟩ := List.mem_map.mp hr
  obtain ⟨rv, hrvmem, hg⟩ := mapOpt_eq_some_mem hdprows hr0mem
  obtain ⟨vv, hvv, hg2⟩ := opt_step hg
  have hlookup : res.lookup r "features" = r.getD 1 Value.vnull := by
    rw [DataFrame.lookup, hreslook]
  rw [hlookup] at hlook
  have hrvlen : rv.length = 2 := by
    rw [hdvrows] at hrvmem
    obtain ⟨ra, hra, hrveq⟩ := List.mem_map.mp hrvmem
    rw [← hrveq]
    simp [hidxs0len]
  split at hg2
  case isFalse => simp at hg2
  case isTrue hlen =>
    simp only [Option.some.injEq] at hg2
    have hr0val : r0 = rv ++ [Value.vvec (scaleVec sm'.mins sm'.maxs vv)] := hg2.symm
    have hgetr : r.getD 1 Value.vnull = Value.vvec (scaleVec sm'.mins sm'.maxs vv) := by
      rw [← hr0]
      simp only [List.map_cons, List.map_nil, List.getD_cons_succ, List.getD_cons_zero]
      rw [hr0val]
      have hga : (rv ++ [Value.vvec (scaleVec sm'.mins sm'.maxs vv)]).getD rv.length Value.vnull =
          Value.vvec (scaleVec sm'.mins sm'.maxs vv) := getD_append_self rv _ _
      rw [hrvlen] at hga
      exact hga
    rw [hgetr] at hlook
    have hveq : v = scaleVec sm'.mins sm'.maxs vv := by
      exact ((Value.vvec.injEq _ _).mp hlook).symm
    subst hveq
    have hvvmem : vv ∈ vecs := by
      obtain ⟨b, hbmem, hb⟩ := mapOpt_mem_of_mem hvecsmap hrvmem
      rw [hvv] at hb
      cases hb
      exact hbmem
    rw [hvecseq] at hvvmem
    have hvvdisj : vv = v0 ∨ vv ∈ rest := List.mem_cons.mp hvvmem
    have hminb : ∀ i m x, sm'.mins.get? i = some m → vv.get? i = some x → m ≤ x := by
      intro i m x hm hx
      rw [hmins] at hm
      exact foldl_zipWith_min_le rest v0 vv hvvdisj hall i m x hm hx
    have hmaxb : ∀ i m x, sm'.maxs.get? i = some m → vv.get? i = some x → x ≤ m := by
      intro i m x hm hx
      rw [hmaxs] at hm
      exact foldl_zipWith_max_ge rest v0 vv hvvdisj hall i m x hm hx
    exact scaleVec_forall_bounds sm'.mins sm'.maxs vv hminb hmaxb q hq


/-- C8 witness: the concrete run on df1 with scaling enabled; the single
feature collapses to the midpoint 1/2, which lies in [0, 1]. -/
theorem claim_C8_witness : 0 ≤ (1/2 : ℚ) ∧ (1/2 : ℚ) ≤ 1 :=
  claim_C8 envB df1 ["x"] "y" true
    ⟨[("label", DType.FloatType), ("features", DType.VectorUDT)],
     [[Value.vreal 80, Value.vvec [1/2]]]⟩ ⟨[5], [5]⟩ (by rfl)
    [Value.vreal 80, Value.vvec [1/2]] (by simp)
    [1/2] (by rfl) (1/2) (by simp)


end Project14
